import Mathlib

/-
Verification of the mp4-to-gb converter (src/mp4_to_gb.py).

The development shallowly embeds the pure core of the script:
  * `patch_rgbds` models `GameBoyVideoConverter.patch_rgbds_syntax`,
    the line-oriented RGBDS-compatibility patcher, at the level of
    file contents (lists of characters);
  * `check_dependencies` models the dependency prober;
  * `configs`, `derivedFps` model the resolution table and the
    frame-rate derivation of `extract_frames`;
  * `build_rom` and `main_pipeline` model the build invocation and
    the orchestration skeleton of `main`, with every external effect
    (process exits, file existence) supplied by an explicit `World`.

File contents are `List Char`; Python text operations are translated
operation by operation (`str.strip`, `in`, `str.startswith`,
`content.split` on the newline character, the `re.match` pattern).
-/

/-- Whitespace class of the patcher: models Python's regex class for
whitespace and `str.strip` over the ASCII range (space, tab, newline,
carriage return, vertical tab, form feed). Source lines never contain
characters outside ASCII in the patched assembly file, and the claims
only need the ASCII fragment. -/
def isPySpace (c : Char) : Bool :=
  c == ' ' || c == '\t' || c == '\n' || c == '\r' || c == '\x0b' || c == '\x0c'

/-- First character of an identifier in the patcher's pattern: the
character class of letters and underscore. -/
def isIdentStart (c : Char) : Bool :=
  (decide ('A' ≤ c) && decide (c ≤ 'Z')) ||
  (decide ('a' ≤ c) && decide (c ≤ 'z')) ||
  c == '_'

/-- Continuation character of an identifier: letters, digits, underscore. -/
def isIdentCont (c : Char) : Bool :=
  isIdentStart c || (decide ('0' ≤ c) && decide (c ≤ '9'))

/-- `startsWithL pat s` : `s` begins with `pat` (models `str.startswith`
and anchored literal matching). -/
def startsWithL : List Char → List Char → Bool
  | [], _ => true
  | _ :: _, [] => false
  | p :: ps, c :: cs => p == c && startsWithL ps cs

/-- `containsSub pat s` : `pat` occurs as a contiguous substring of `s`
(models Python's `pat in s`). -/
def containsSub (pat : List Char) : List Char → Bool
  | [] => startsWithL pat []
  | c :: cs => startsWithL pat (c :: cs) || containsSub pat cs

/-- Models `str.strip()`: removes leading and trailing whitespace. -/
def pyStrip (l : List Char) : List Char :=
  ((l.dropWhile isPySpace).reverse.dropWhile isPySpace).reverse

/-- The qualifier token checked by `'DEF ' in line` (src line 56). -/
def defTok : List Char := String.toList "DEF "

/-- Directive token of the `'INCLUDE' in line` check (src line 58). -/
def includeTok : List Char := String.toList "INCLUDE"

/-- Directive token of the `'SECTION' in line` check (src line 59). -/
def sectionTok : List Char := String.toList "SECTION"

/-- Directive token of the `'EXPORT' in line` check (src line 60). -/
def exportTok : List Char := String.toList "EXPORT"

/-- The "already patched" marker searched for by
`re.search(r'DEF PULLDOWN_SKIPF EQU', content)` (src line 38): a plain
literal, so modelled as a substring test. -/
def pulldownMarker : List Char := String.toList "DEF PULLDOWN_SKIPF EQU"

/-- The skip condition of the per-line loop (src lines 55-60): comment
line, already-qualified line, blank line, or directive line, in the
source's order of tests. -/
def skipLine (l : List Char) : Bool :=
  startsWithL (String.toList ";") (pyStrip l) ||
  containsSub defTok l ||
  (pyStrip l).isEmpty ||
  containsSub includeTok l ||
  containsSub sectionTok l ||
  containsSub exportTok l

/-- Helper for `matchEqu`: after the leading whitespace and the
identifier have been consumed, checks the remainder `l2` against
the tail of the pattern: one-or-more whitespace, the literal `EQU`,
one-or-more whitespace, anything to end of line. On success the
captured groups are `(ws, ident, l2)`. -/
def matchEquAfterIdent (ws ident l2 : List Char) :
    Option (List Char × List Char × List Char) :=
  if (l2.takeWhile isPySpace).isEmpty then none
  else
    match l2.dropWhile isPySpace with
    | 'E' :: 'Q' :: 'U' :: c4 :: _ =>
        if isPySpace c4 then some (ws, ident, l2) else none
    | _ => none

/-- Models `re.match` of the declaration pattern (src line 66):
optional leading whitespace, an identifier, whitespace, `EQU`,
whitespace, rest of line; returns the three captured groups
`(indent, symbol, rest)`. The character classes for whitespace and
identifier characters are disjoint, so the regex engine's
backtracking search agrees with this maximal-munch parse on the
newline-free lines produced by splitting the file on newlines. -/
def matchEqu (l : List Char) : Option (List Char × List Char × List Char) :=
  match l.dropWhile isPySpace with
  | [] => none
  | c :: cs =>
      if isIdentStart c then
        matchEquAfterIdent (l.takeWhile isPySpace)
          (c :: cs.takeWhile isIdentCont) (cs.dropWhile isIdentCont)
      else none

/-- One iteration of the per-line loop (src lines 53-73): skip lines
satisfying the skip condition, rewrite matching declaration lines to
`indent ++ "DEF " ++ symbol ++ rest`, pass everything else through. -/
def patchLine (l : List Char) : List Char :=
  if skipLine l then l
  else
    match matchEqu l with
    | some (ws, ident, rest) => ws ++ defTok ++ ident ++ rest
    | none => l

/-- Models `content.split('\n')`: splits at every newline, keeping
empty pieces, and always returns at least one piece. -/
def splitNl : List Char → List (List Char)
  | [] => [[]]
  | c :: cs =>
      if c = '\n' then [] :: splitNl cs
      else
        match splitNl cs with
        | [] => [[c]]
        | p :: ps => (c :: p) :: ps

/-- Models `'\n'.join(fixed_lines)`. -/
def joinNl : List (List Char) → List Char
  | [] => []
  | [p] => p
  | p :: q :: ps => p ++ '\n' :: joinNl (q :: ps)

/-- The full text transformation of the patch body (src lines 50-77):
split into lines, patch each line, join back. -/
def patchContent (c : List Char) : List Char :=
  joinNl ((splitNl c).map patchLine)

/-- Observable outcome of one run of the patcher: the file's content
afterwards (`none` when the file does not exist), whether a backup
copy was made during this run, and the returned success flag. -/
structure PatchOutcome where
  newContent : Option (List Char)
  backupCreated : Bool
  ok : Bool
  deriving DecidableEq, Repr

/-- Models `patch_rgbds_syntax` (src lines 25-80) as a function of
the file state: `file` is the current content of `src/video.asm`
(`none` when absent) and `backupExists` says whether the `.asm.bak`
snapshot is already present. A missing file is a successful no-op;
a file containing the `DEF PULLDOWN_SKIPF EQU` marker is left
untouched; otherwise a backup is created if absent and the rewritten
content is written back. The function returns `True` on every path. -/
def patch_rgbds (file : Option (List Char)) (backupExists : Bool) : PatchOutcome :=
  match file with
  | none => ⟨none, false, true⟩
  | some c =>
      if containsSub pulldownMarker c then ⟨some c, false, true⟩
      else ⟨some (patchContent c), !backupExists, true⟩

/-- The required-executables table of `check_dependencies`
(src lines 84-90): command name paired with its description. -/
def deps : List (String × String) :=
  [("ffmpeg", "FFmpeg (for video/audio processing)"),
   ("python3", "Python 3"),
   ("rgbasm", "RGBDS (Game Boy assembler)"),
   ("rgblink", "RGBDS linker"),
   ("rgbfix", "RGBDS ROM fixer")]

/-- The environment the prober inspects: which executables
`shutil.which` resolves, and whether each of the two Python
libraries can be loaded. -/
structure Env where
  which : String → Bool
  hasPIL : Bool
  hasSoundfile : Bool

/-- Result of the probe: the returned verdict and the list of items
named in the failure report. -/
structure DepsReport where
  ok : Bool
  missing : List String
  deriving DecidableEq, Repr

/-- Models `check_dependencies` (src lines 82-118): the loop collects
every executable missing from the environment into `missing` and, if
any, reports them all and returns `False`; only then are the two
library imports tried, each returning `False` immediately on failure;
`True` otherwise. -/
def check_dependencies (env : Env) : DepsReport :=
  let missing :=
    (deps.filter (fun d => !(env.which d.fst))).map
      (fun d => "  - " ++ d.snd ++ " (" ++ d.fst ++ ")")
  if !missing.isEmpty then ⟨false, missing⟩
  else if !env.hasPIL then ⟨false, ["Pillow"]⟩
  else if !env.hasSoundfile then ⟨false, ["soundfile"]⟩
  else ⟨true, []⟩

/-- An environment with ffmpeg not resolvable and the Pillow library
missing; everything else present. -/
def envNoFfmpegNoPIL : Env :=
  ⟨fun s => !(s == "ffmpeg"), false, true⟩

/-- An environment missing the two RGBDS tools rgbasm and rgbfix,
with all libraries present. -/
def envNoRgb : Env :=
  ⟨fun s => !(s == "rgbasm") && !(s == "rgbfix"), true, true⟩

/-- The resolution table of `extract_frames` (src lines 125-130),
looked up with `configs.get(config, (160, 72))`: a fixed map from the
profile identifier to the pixel (width, height), falling back to
profile 0's dimensions for any other identifier. -/
def configs (config : Int) : Int × Int :=
  if config = 0 then (160, 72)
  else if config = 1 then (160, 64)
  else if config = 2 then (160, 56)
  else (160, 72)

/-- The frame-rate derivation of `extract_frames` (src line 138):
`fps = 30 / pulldown`. The Python float arithmetic is modelled over
the rationals; at the multipliers named by the spec (1.0, 0.5, 2.0)
the float computation is exact, so the models agree there. -/
def derivedFps (pulldown : ℚ) : ℚ := 30 / pulldown

/-- The same division, modelling Python's error semantics: float
division by `0.0` raises `ZeroDivisionError`, so the computation has
no defined result there (`none`); it is guarded nowhere in
`extract_frames` or in `main`, whose `--fps-multiplier` option
converts with bare `float` and accepts any real number. -/
def fpsDivision (pulldown : ℚ) : Option ℚ :=
  if pulldown = 0 then none else some (30 / pulldown)

/-- Result of one `build_rom` call (src lines 182-228): whether the
`SOUND=` parameter was part of the make invocation, and the returned
success flag. -/
structure BuildResult where
  soundIncluded : Bool
  ok : Bool
  deriving DecidableEq, Repr

/-- Models `build_rom`: fails when the Makefile is absent; otherwise
the make command carries `SOUND=...` exactly when a sound path was
passed and that file exists on disk at invocation time (src line
199); fails when make exits non-zero or when `video.gb` is missing
afterwards; succeeds otherwise. -/
def build_rom (makefileExists : Bool) (soundFile : Option Unit)
    (wavExists : Bool) (makeOk : Bool) (romExists : Bool) : BuildResult :=
  if !makefileExists then ⟨false, false⟩
  else
    let soundIncluded := soundFile.isSome && wavExists
    if !makeOk then ⟨soundIncluded, false⟩
    else if !romExists then ⟨soundIncluded, false⟩
    else ⟨soundIncluded, true⟩

/-- The command-line switches of `main` that drive the orchestration
branches (src lines 266-269). -/
structure Args where
  noAudio : Bool
  skipPatch : Bool

/-- The environment of one pipeline run: every fact `main` observes
about the outside world, in the order it observes them. `videoAsm`
and `backupExists` feed the patcher; `wavExists` is whether
`sound.wav` is on disk when `build_rom` checks (src line 199). -/
structure World where
  inputExists : Bool
  depsEnv : Env
  videoAsm : Option (List Char)
  backupExists : Bool
  framesOk : Bool
  audioOk : Bool
  wavExists : Bool
  makefileExists : Bool
  makeOk : Bool
  romExists : Bool

/-- Observable outcome of one run of `main` (src lines 230-355):
process exit code, whether a ROM was built, whether the build
invocation carried the SOUND parameter, and whether the
"Patching failed, continuing anyway" warning was printed. -/
structure RunResult where
  exitCode : Nat
  built : Bool
  soundIncluded : Bool
  patchWarned : Bool
  deriving DecidableEq, Repr

/-- Models the orchestration of `main` (src lines 274-330): exit 1 on
missing input; exit 1 on failed dependency probe; run the patcher
unless skipped, warning (but continuing) if it reports failure; exit
1 on failed frame extraction; attempt audio extraction unless
disabled, downgrading failure to a warning; pass `sound.wav` to the
build only when audio was enabled and its extraction succeeded; exit
1 on failed build, exit 0 on success. -/
def main_pipeline (a : Args) (w : World) : RunResult :=
  if !w.inputExists then ⟨1, false, false, false⟩
  else if !(check_dependencies w.depsEnv).ok then ⟨1, false, false, false⟩
  else
    let patchWarned :=
      !a.skipPatch && !(patch_rgbds w.videoAsm w.backupExists).ok
    if !w.framesOk then ⟨1, false, false, patchWarned⟩
    else
      let audioSuccess := !a.noAudio && w.audioOk
      let soundFile : Option Unit :=
        if !a.noAudio && audioSuccess then some () else none
      let br := build_rom w.makefileExists soundFile w.wavExists
        w.makeOk w.romExists
      if !br.ok then ⟨1, false, br.soundIncluded, patchWarned⟩
      else ⟨0, true, br.soundIncluded, patchWarned⟩

/-- An environment in which every executable resolves and both
libraries import. -/
def envAll : Env := ⟨fun _ => true, true, true⟩

/-- A world where everything succeeds except audio extraction. -/
def worldNoAudio : World :=
  ⟨true, envAll, none, false, true, false, false, true, true, true⟩

/-- A world where everything, audio included, succeeds. -/
def worldAll : World :=
  ⟨true, envAll, none, false, true, true, true, true, true, true⟩

theorem startsWithL_self_append (p t : List Char) :
    startsWithL p (p ++ t) = true := by
  induction p with
  | nil => rfl
  | cons c cs ih => simp [startsWithL, ih]

theorem containsSub_of_startsWithL (p s : List Char)
    (h : startsWithL p s = true) : containsSub p s = true := by
  cases s with
  | nil => simpa [containsSub] using h
  | cons c cs => simp [containsSub, h]

theorem containsSub_append_left (p a t : List Char)
    (h : containsSub p t = true) : containsSub p (a ++ t) = true := by
  induction a with
  | nil => simpa using h
  | cons c cs ih => simp [containsSub, ih]

theorem containsSub_self_append (p t : List Char) :
    containsSub p (p ++ t) = true :=
  containsSub_of_startsWithL _ _ (startsWithL_self_append p t)

theorem mem_of_mem_takeWhile {x : Char} {p : Char → Bool} :
    ∀ {l : List Char}, x ∈ l.takeWhile p → x ∈ l := by
  intro l
  induction l with
  | nil => intro h; simp at h
  | cons c cs ih =>
      intro h
      rw [List.takeWhile_cons] at h
      by_cases hc : p c = true
      · simp only [hc, if_pos] at h
        rcases List.mem_cons.mp h with h | h
        · exact h ▸ List.mem_cons_self c cs
        · exact List.mem_cons_of_mem c (ih h)
      · simp [hc] at h

theorem mem_of_mem_dropWhile {x : Char} {p : Char → Bool} :
    ∀ {l : List Char}, x ∈ l.dropWhile p → x ∈ l := by
  intro l
  induction l with
  | nil => intro h; simp at h
  | cons c cs ih =>
      intro h
      rw [List.dropWhile_cons] at h
      by_cases hc : p c = true
      · simp only [hc, if_pos] at h
        exact List.mem_cons_of_mem c (ih h)
      · simp only [hc] at h
        simpa using h

theorem matchEquAfterIdent_some {a b l2 ws ident rest : List Char}
    (h : matchEquAfterIdent a b l2 = some (ws, ident, rest)) :
    ws = a ∧ ident = b ∧ rest = l2 := by
  unfold matchEquAfterIdent at h
  split at h
  · simp at h
  · split at h
    · split at h
      · simp only [Option.some.injEq, Prod.mk.injEq] at h
        exact ⟨h.1.symm, h.2.1.symm, h.2.2.symm⟩
      · simp at h
    · simp at h

theorem matchEqu_some {l ws ident rest : List Char}
    (h : matchEqu l = some (ws, ident, rest)) :
    ws = l.takeWhile isPySpace ∧
    ∃ c cs, l.dropWhile isPySpace = c :: cs ∧
      ident = c :: cs.takeWhile isIdentCont ∧
      rest = cs.dropWhile isIdentCont := by
  unfold matchEqu at h
  split at h
  · simp at h
  · rename_i c cs hd
    split at h
    · obtain ⟨h1, h2, h3⟩ := matchEquAfterIdent_some h
      exact ⟨h1, c, cs, hd, h2, h3⟩
    · simp at h

theorem matchEqu_parts_mem {l ws ident rest : List Char}
    (h : matchEqu l = some (ws, ident, rest)) :
    (∀ x ∈ ws, x ∈ l) ∧ (∀ x ∈ ident, x ∈ l) ∧ (∀ x ∈ rest, x ∈ l) := by
  obtain ⟨hws, c, cs, hd, hident, hrest⟩ := matchEqu_some h
  have hdmem : ∀ x ∈ (c :: cs), x ∈ l := by
    intro x hx
    exact mem_of_mem_dropWhile (p := isPySpace) (hd ▸ hx)
  refine ⟨?_, ?_, ?_⟩
  · intro x hx
    exact mem_of_mem_takeWhile (p := isPySpace) (hws ▸ hx)
  · intro x hx
    rw [hident] at hx
    rcases List.mem_cons.mp hx with hx | hx
    · exact hdmem x (hx ▸ List.mem_cons_self c cs)
    · exact hdmem x (List.mem_cons_of_mem c (mem_of_mem_takeWhile hx))
  · intro x hx
    rw [hrest] at hx
    exact hdmem x (List.mem_cons_of_mem c (mem_of_mem_dropWhile hx))

theorem skipLine_of_containsSub_defTok {l : List Char}
    (h : containsSub defTok l = true) : skipLine l = true := by
  simp [skipLine, h]

theorem patchLine_of_skip {x : List Char} (h : skipLine x = true) :
    patchLine x = x := by
  simp [patchLine, h]

theorem patchLine_output_contains_defTok {l ws ident rest : List Char}
    (hs : skipLine l = false) (hm : matchEqu l = some (ws, ident, rest)) :
    containsSub defTok (patchLine l) = true := by
  have heq : patchLine l = ws ++ (defTok ++ (ident ++ rest)) := by
    simp [patchLine, hs, hm]
  rw [heq]
  exact containsSub_append_left _ _ _ (containsSub_self_append _ _)

theorem patchLine_idem (l : List Char) :
    patchLine (patchLine l) = patchLine l := by
  cases hs : skipLine l with
  | true => simp [patchLine_of_skip hs]
  | false =>
      cases hm : matchEqu l with
      | none =>
          have hnone : patchLine l = l := by simp [patchLine, hs, hm]
          rw [hnone]; exact hnone
      | some t =>
          obtain ⟨ws, ident, rest⟩ := t
          have hskip : skipLine (patchLine l) = true :=
            skipLine_of_containsSub_defTok
              (patchLine_output_contains_defTok hs hm)
          exact patchLine_of_skip hskip

theorem splitNl_cons_newline (cs : List Char) :
    splitNl ('\n' :: cs) = [] :: splitNl cs := rfl

theorem splitNl_cons_other {c : Char} (hc : ¬ c = '\n') (cs : List Char) :
    splitNl (c :: cs) =
      match splitNl cs with
      | [] => [[c]]
      | p :: ps => (c :: p) :: ps := by
  conv_lhs => rw [splitNl]
  rw [if_neg hc]

theorem splitNl_ne_nil (l : List Char) : splitNl l ≠ [] := by
  cases l with
  | nil => simp [splitNl]
  | cons c cs =>
      by_cases hc : c = '\n'
      · subst hc; rw [splitNl_cons_newline]; simp
      · rw [splitNl_cons_other hc]
        cases splitNl cs <;> simp

theorem splitNl_no_newline :
    ∀ (l : List Char), ∀ p ∈ splitNl l, '\n' ∉ p := by
  intro l
  induction l with
  | nil =>
      intro p hp
      simp [splitNl] at hp
      simp [hp]
  | cons c cs ih =>
      intro p hp
      by_cases hc : c = '\n'
      · subst hc
        rw [splitNl_cons_newline] at hp
        rcases List.mem_cons.mp hp with hp | hp
        · simp [hp]
        · exact ih p hp
      · rw [splitNl_cons_other hc] at hp
        cases hq : splitNl cs with
        | nil => exact absurd hq (splitNl_ne_nil cs)
        | cons q qs =>
            rw [hq] at hp
            have hqmem : q ∈ splitNl cs := by
              rw [hq]; exact List.mem_cons_self q qs
            rcases List.mem_cons.mp hp with hp | hp
            · subst hp
              intro hmem
              rcases List.mem_cons.mp hmem with hmem | hmem
              · exact hc hmem.symm
              · exact ih q hqmem hmem
            · have hpm : p ∈ splitNl cs := by
                rw [hq]; exact List.mem_cons_of_mem q hp
              exact ih p hpm

theorem splitNl_of_no_newline {p : List Char} (h : '\n' ∉ p) :
    splitNl p = [p] := by
  induction p with
  | nil => rfl
  | cons c cs ih =>
      have hc : ¬ c = '\n' := fun hcc => h (hcc ▸ List.mem_cons_self c cs)
      have hcs : '\n' ∉ cs := fun hm => h (List.mem_cons_of_mem c hm)
      rw [splitNl_cons_other hc, ih hcs]

theorem splitNl_append_newline {p : List Char} (t : List Char)
    (h : '\n' ∉ p) : splitNl (p ++ '\n' :: t) = p :: splitNl t := by
  induction p with
  | nil => rw [List.nil_append, splitNl_cons_newline]
  | cons c cs ih =>
      have hc : ¬ c = '\n' := fun hcc => h (hcc ▸ List.mem_cons_self c cs)
      have hcs : '\n' ∉ cs := fun hm => h (List.mem_cons_of_mem c hm)
      rw [List.cons_append, splitNl_cons_other hc, ih hcs]

theorem splitNl_joinNl :
    ∀ (ps : List (List Char)), ps ≠ [] → (∀ p ∈ ps, '\n' ∉ p) →
      splitNl (joinNl ps) = ps := by
  intro ps
  induction ps with
  | nil => intro h; exact absurd rfl h
  | cons p qs ih =>
      intro _ hnl
      cases qs with
      | nil =>
          show splitNl (joinNl [p]) = [p]
          unfold joinNl
          exact splitNl_of_no_newline (hnl p (List.mem_cons_self p []))
      | cons q qs' =>
          show splitNl (joinNl (p :: q :: qs')) = p :: q :: qs'
          unfold joinNl
          rw [splitNl_append_newline _ (hnl p (List.mem_cons_self p _))]
          rw [ih (by simp) (fun r hr => hnl r (List.mem_cons_of_mem p hr))]

theorem patchLine_no_newline {l : List Char} (h : '\n' ∉ l) :
    '\n' ∉ patchLine l := by
  cases hs : skipLine l with
  | true => rw [patchLine_of_skip hs]; exact h
  | false =>
      cases hm : matchEqu l with
      | none =>
          have hnone : patchLine l = l := by simp [patchLine, hs, hm]
          rw [hnone]; exact h
      | some t =>
          obtain ⟨ws, ident, rest⟩ := t
          have heq : patchLine l = ws ++ (defTok ++ (ident ++ rest)) := by
            simp [patchLine, hs, hm]
          obtain ⟨hws, hident, hrest⟩ := matchEqu_parts_mem hm
          rw [heq]
          intro hmem
          rcases List.mem_append.mp hmem with hmem | hmem
          · exact h (hws _ hmem)
          · rcases List.mem_append.mp hmem with hmem | hmem
            · revert hmem; decide
            · rcases List.mem_append.mp hmem with hmem | hmem
              · exact h (hident _ hmem)
              · exact h (hrest _ hmem)

theorem map_patchLine_idem (ps : List (List Char)) :
    (ps.map patchLine).map patchLine = ps.map patchLine := by
  induction ps with
  | nil => rfl
  | cons p qs ih => simp [patchLine_idem, ih]

theorem patchContent_idem (c : List Char) :
    patchContent (patchContent c) = patchContent c := by
  unfold patchContent
  rw [splitNl_joinNl ((splitNl c).map patchLine)
        (by
          intro hnil
          exact splitNl_ne_nil c (List.map_eq_nil_iff.mp hnil))
        (by
          intro p hp
          rcases List.mem_map.mp hp with ⟨q, hq, hpq⟩
          exact hpq ▸ patchLine_no_newline (splitNl_no_newline c q hq))]
  rw [map_patchLine_idem]

/-- C1: applying the patcher (`patch_rgbds_syntax`) twice yields file
contents identical to applying it once: a second run leaves the file's
text unchanged, for every initial file state (missing file included)
and every backup state. -/
theorem patch_rgbds_idempotent (file : Option (List Char)) (b b' : Bool) :
    (patch_rgbds (patch_rgbds file b).newContent b').newContent =
      (patch_rgbds file b).newContent := by
  cases file with
  | none => rfl
  | some c =>
      by_cases hm : containsSub pulldownMarker c = true
      · simp [patch_rgbds, hm]
      · have hm' : containsSub pulldownMarker c = false :=
          Bool.eq_false_iff.mpr hm
        simp only [patch_rgbds, hm', Bool.false_eq_true, if_false, if_neg]
        by_cases hm2 : containsSub pulldownMarker (patchContent c) = true
        · simp [hm2]
        · have hm2' : containsSub pulldownMarker (patchContent c) = false :=
            Bool.eq_false_iff.mpr hm2
          simp [hm2', patchContent_idem]

/-- C2: a line that (after trimming) is not a comment, is not blank,
contains neither the qualifier token nor a directive keyword, and
matches the declaration pattern with groups `(indent, symbol, rest)`
is rewritten to the indent, the inserted qualifier `DEF `, the symbol,
and the rest of the line, each verbatim. -/
theorem patchLine_qualifies_declaration (l ws ident rest : List Char)
    (hcomment : startsWithL (String.toList ";") (pyStrip l) = false)
    (hblank : (pyStrip l).isEmpty = false)
    (hdef : containsSub defTok l = false)
    (hinc : containsSub includeTok l = false)
    (hsec : containsSub sectionTok l = false)
    (hexp : containsSub exportTok l = false)
    (hmatch : matchEqu l = some (ws, ident, rest)) :
    patchLine l = ws ++ defTok ++ ident ++ rest := by
  have hs : skipLine l = false := by
    unfold skipLine
    rw [hcomment, hdef, hblank, hinc, hsec, hexp]
    rfl
  simp [patchLine, hs, hmatch]

/-- Witness for C2 at the spec's example line `  MYCONST EQU 5`. -/
theorem patchLine_qualifies_declaration_witness :
    patchLine (String.toList "  MYCONST EQU 5") =
      String.toList "  DEF MYCONST EQU 5" :=
  (patchLine_qualifies_declaration
      (String.toList "  MYCONST EQU 5")
      (String.toList "  ") (String.toList "MYCONST") (String.toList " EQU 5")
      (by decide) (by decide) (by decide) (by decide) (by decide) (by decide)
      (by decide)).trans (by decide)

/-- C3: a line that (after trimming) starts with the comment marker,
or contains one of the directive keywords `INCLUDE`, `SECTION`,
`EXPORT`, or already contains the qualifier token, or is blank after
trimming, is passed through by the per-line patch byte-identical. -/
theorem patchLine_noninterference (l : List Char)
    (h : startsWithL (String.toList ";") (pyStrip l) = true ∨
         containsSub includeTok l = true ∨
         containsSub sectionTok l = true ∨
         containsSub exportTok l = true ∨
         containsSub defTok l = true ∨
         (pyStrip l).isEmpty = true) :
    patchLine l = l := by
  have hs : skipLine l = true := by
    unfold skipLine
    rcases h with h | h | h | h | h | h <;> rw [h] <;> simp
  exact patchLine_of_skip hs

/-- Witness for C3 at a comment line, a directive line, a qualified
line and a blank line. -/
theorem patchLine_noninterference_witness :
    patchLine (String.toList "; copyright notice") =
        String.toList "; copyright notice" ∧
    patchLine (String.toList "INCLUDE \x22hw.inc\x22") =
        String.toList "INCLUDE \x22hw.inc\x22" ∧
    patchLine (String.toList "DEF OLD EQU 3") =
        String.toList "DEF OLD EQU 3" ∧
    patchLine (String.toList "   ") = String.toList "   " :=
  ⟨patchLine_noninterference _ (Or.inl (by decide)),
   patchLine_noninterference _ (Or.inr (Or.inl (by decide))),
   patchLine_noninterference _
     (Or.inr (Or.inr (Or.inr (Or.inr (Or.inl (by decide)))))),
   patchLine_noninterference _
     (Or.inr (Or.inr (Or.inr (Or.inr (Or.inr (by decide))))))⟩

/-- C4 counterexample: the file `DEF FOO EQU 1\nBAR EQU 2` contains a
qualified constant declaration (`DEF FOO EQU 1`), yet the patcher does
not treat it as already patched: it rewrites the second line and
creates a backup, because the global check looks only for the specific
text `DEF PULLDOWN_SKIPF EQU`. -/
theorem patch_marker_check_counterexample :
    containsSub defTok (String.toList "DEF FOO EQU 1\nBAR EQU 2") = true ∧
    (patch_rgbds (some (String.toList "DEF FOO EQU 1\nBAR EQU 2")) false).newContent ≠
      some (String.toList "DEF FOO EQU 1\nBAR EQU 2") ∧
    (patch_rgbds (some (String.toList "DEF FOO EQU 1\nBAR EQU 2")) false).newContent =
      some (String.toList "DEF FOO EQU 1\nDEF BAR EQU 2") ∧
    (patch_rgbds (some (String.toList "DEF FOO EQU 1\nBAR EQU 2")) false).backupCreated =
      true := by
  refine ⟨by decide, ?_, by decide, by decide⟩
  decide

/-- C4 amended: only when the specific qualified declaration
`DEF PULLDOWN_SKIPF EQU` appears somewhere in the file does the
patcher treat the whole file as already patched and perform no
changes: the content is returned untouched and no backup is created,
whatever the backup state. -/
theorem patch_skips_when_pulldown_marker_present (c : List Char) (b : Bool)
    (h : containsSub pulldownMarker c = true) :
    patch_rgbds (some c) b = ⟨some c, false, true⟩ := by
  simp [patch_rgbds, h]

/-- Witness for the amended C4 at a file containing the marker. -/
theorem patch_skips_when_pulldown_marker_present_witness :
    containsSub pulldownMarker
        (String.toList "DEF PULLDOWN_SKIPF EQU 2\nOTHER EQU 9") = true ∧
    patch_rgbds (some (String.toList "DEF PULLDOWN_SKIPF EQU 2\nOTHER EQU 9")) true =
      ⟨some (String.toList "DEF PULLDOWN_SKIPF EQU 2\nOTHER EQU 9"), false, true⟩ :=
  ⟨by decide,
   patch_skips_when_pulldown_marker_present _ true (by decide)⟩

theorem deps_filter_empty_iff (env : Env) :
    (deps.filter (fun d => !(env.which d.fst))).isEmpty = true ↔
      ∀ d ∈ deps, env.which d.fst = true := by
  rw [List.isEmpty_iff, List.filter_eq_nil_iff]
  constructor
  · intro h d hd
    have hh := h d hd
    simpa using hh
  · intro h d hd
    simp [h d hd]

theorem missing_isEmpty_eq (env : Env) :
    ((deps.filter (fun d => !(env.which d.fst))).map
      (fun d => "  - " ++ d.snd ++ " (" ++ d.fst ++ ")")).isEmpty =
    (deps.filter (fun d => !(env.which d.fst))).isEmpty := by
  cases h : deps.filter (fun d => !(env.which d.fst)) <;> simp [h]

theorem check_dependencies_missing_branch (env : Env)
    (h : (deps.filter (fun d => !(env.which d.fst))).isEmpty = false) :
    check_dependencies env =
      ⟨false, (deps.filter (fun d => !(env.which d.fst))).map
        (fun d => "  - " ++ d.snd ++ " (" ++ d.fst ++ ")")⟩ := by
  unfold check_dependencies
  simp [missing_isEmpty_eq, h]

theorem check_dependencies_ok_iff (env : Env) :
    (check_dependencies env).ok = true ↔
      (∀ d ∈ deps, env.which d.fst = true) ∧
      env.hasPIL = true ∧ env.hasSoundfile = true := by
  by_cases h1 : (deps.filter (fun d => !(env.which d.fst))).isEmpty = true
  · unfold check_dependencies
    cases h2 : env.hasPIL <;> cases h3 : env.hasSoundfile <;>
      simp [missing_isEmpty_eq, h1, h2, h3] <;>
      exact fun a b hab => (deps_filter_empty_iff env).mp h1 (a, b) hab
  · have h1f : (deps.filter (fun d => !(env.which d.fst))).isEmpty = false :=
      Bool.eq_false_iff.mpr h1
    rw [check_dependencies_missing_branch env h1f]
    constructor
    · intro hfalse; simp at hfalse
    · intro hall
      exact absurd ((deps_filter_empty_iff env).mpr hall.1) h1

/-- C5 counterexample: in an environment where `ffmpeg` is missing and
the Pillow library is also missing, the probe fails but its report
names only the missing executable; the missing library is not listed
anywhere in the report, because the library checks are never reached.
The claim that the failure report lists every missing library is
therefore false. -/
theorem check_dependencies_counterexample :
    envNoFfmpegNoPIL.hasPIL = false ∧
    (check_dependencies envNoFfmpegNoPIL).ok = false ∧
    (check_dependencies envNoFfmpegNoPIL).missing =
      ["  - FFmpeg (for video/audio processing) (ffmpeg)"] ∧
    "Pillow" ∉ (check_dependencies envNoFfmpegNoPIL).missing := by
  refine ⟨rfl, by decide, by decide, by decide⟩

/-- C5 amended: the executables loop runs to completion, so when any
executable is missing the report names every missing executable; the
verdict is pass exactly when all executables resolve and both
libraries import (so any missing dependency fails the probe). Library
checks, however, are sequential and are reached only when all
executables are present. -/
theorem check_dependencies_complete_exec_report (env : Env) :
    ((check_dependencies env).ok = true ↔
      (∀ d ∈ deps, env.which d.fst = true) ∧
      env.hasPIL = true ∧ env.hasSoundfile = true) ∧
    ∀ d ∈ deps, env.which d.fst = false →
      ("  - " ++ d.snd ++ " (" ++ d.fst ++ ")") ∈
        (check_dependencies env).missing := by
  refine ⟨check_dependencies_ok_iff env, ?_⟩
  intro d hd hw
  have hdf : d ∈ deps.filter (fun d => !(env.which d.fst)) :=
    List.mem_filter.mpr ⟨hd, by simp [hw]⟩
  have hne : (deps.filter (fun d => !(env.which d.fst))).isEmpty = false := by
    cases hfe : deps.filter (fun d => !(env.which d.fst)) with
    | nil => rw [hfe] at hdf; simp at hdf
    | cons x xs => simp [hfe]
  rw [check_dependencies_missing_branch env hne]
  exact List.mem_map.mpr ⟨d, hdf, rfl⟩

/-- Witness for the amended C5: with rgbasm and rgbfix missing, both
are listed in the report and the verdict is fail. -/
theorem check_dependencies_complete_exec_report_witness :
    "  - RGBDS (Game Boy assembler) (rgbasm)" ∈
      (check_dependencies envNoRgb).missing ∧
    "  - RGBDS ROM fixer (rgbfix)" ∈
      (check_dependencies envNoRgb).missing ∧
    (check_dependencies envNoRgb).ok = false := by
  have h := check_dependencies_complete_exec_report envNoRgb
  refine ⟨?_, ?_, ?_⟩
  · exact h.2 ("rgbasm", "RGBDS (Game Boy assembler)") (by decide) (by decide)
  · exact h.2 ("rgbfix", "RGBDS ROM fixer") (by decide) (by decide)
  · cases hok : (check_dependencies envNoRgb).ok with
    | false => rfl
    | true =>
        have hall := (h.1.mp hok).1 ("rgbasm", "RGBDS (Game Boy assembler)")
          (by decide)
        simp [envNoRgb] at hall

theorem build_rom_soundIncluded (sf : Option Unit) (wav mk rom : Bool) :
    (build_rom true sf wav mk rom).soundIncluded = (sf.isSome && wav) := by
  unfold build_rom
  cases mk <;> cases rom <;> simp

theorem main_pipeline_soundIncluded_eq (a : Args) (w : World) :
    (main_pipeline a w).soundIncluded =
      (w.inputExists && (check_dependencies w.depsEnv).ok && w.framesOk &&
       w.makefileExists && !a.noAudio && w.audioOk && w.wavExists) := by
  cases h1 : w.inputExists <;>
    cases h2 : (check_dependencies w.depsEnv).ok <;>
    cases h3 : w.framesOk <;>
    cases h4 : a.noAudio <;>
    cases h5 : w.audioOk <;>
    cases h6 : w.makefileExists <;>
    cases h7 : w.makeOk <;>
    cases h8 : w.romExists <;>
    simp [main_pipeline, build_rom, h1, h2, h3, h4, h5, h6, h7, h8]

theorem patch_rgbds_ok (file : Option (List Char)) (b : Bool) :
    (patch_rgbds file b).ok = true := by
  cases file with
  | none => rfl
  | some c =>
      by_cases h : containsSub pulldownMarker c = true
      · simp [patch_rgbds, h]
      · simp [patch_rgbds, Bool.eq_false_iff.mpr h]

/-- C6: when audio extraction fails but frame extraction and the build
succeed (and dependencies and the input are fine), the pipeline still
terminates successfully with a built ROM and the SOUND parameter
omitted from the make invocation; and in every run whatsoever, the
SOUND parameter is included only if audio was requested (`--no-audio`
not given) and the waveform file exists on disk at invocation time. -/
theorem pipeline_audio_degrades :
    (∀ (a : Args) (w : World),
      w.inputExists = true →
      (check_dependencies w.depsEnv).ok = true →
      w.framesOk = true →
      w.audioOk = false →
      w.makefileExists = true →
      w.makeOk = true →
      w.romExists = true →
      (main_pipeline a w).exitCode = 0 ∧
      (main_pipeline a w).built = true ∧
      (main_pipeline a w).soundIncluded = false) ∧
    ∀ (a : Args) (w : World),
      (main_pipeline a w).soundIncluded = true →
      a.noAudio = false ∧ w.wavExists = true := by
  constructor
  · intro a w hin hdeps hframes haudio hmk hmake hrom
    refine ⟨?_, ?_, ?_⟩ <;>
      simp [main_pipeline, build_rom, hin, hdeps, hframes, haudio, hmk,
        hmake, hrom]
  · intro a w h
    rw [main_pipeline_soundIncluded_eq] at h
    simp only [Bool.and_eq_true, Bool.not_eq_true'] at h
    exact ⟨h.1.1.2, h.2⟩

/-- Witness for C6: a concrete failed-audio run builds successfully
without SOUND, and a concrete successful-audio run that includes
SOUND indeed had audio requested and the waveform present. -/
theorem pipeline_audio_degrades_witness :
    ((main_pipeline ⟨false, false⟩ worldNoAudio).exitCode = 0 ∧
     (main_pipeline ⟨false, false⟩ worldNoAudio).built = true ∧
     (main_pipeline ⟨false, false⟩ worldNoAudio).soundIncluded = false) ∧
    (main_pipeline ⟨false, false⟩ worldAll).soundIncluded = true ∧
    Args.noAudio ⟨false, false⟩ = false ∧ worldAll.wavExists = true := by
  refine ⟨?_, by decide, ?_⟩
  · exact pipeline_audio_degrades.1 ⟨false, false⟩ worldNoAudio
      (by decide) (by decide) (by decide) (by decide) (by decide)
      (by decide) (by decide)
  · exact pipeline_audio_degrades.2 ⟨false, false⟩ worldAll (by decide)

/-- C7: the resolution mapping sends profile 0 to (160,72), profile 1
to (160,64), profile 2 to (160,56), and every other identifier to
profile 0's dimensions (160,72). -/
theorem resolution_mapping :
    configs 0 = (160, 72) ∧ configs 1 = (160, 64) ∧
    configs 2 = (160, 56) ∧
    ∀ c : Int, c ≠ 0 → c ≠ 1 → c ≠ 2 → configs c = (160, 72) := by
  refine ⟨rfl, rfl, rfl, ?_⟩
  intro c h0 h1 h2
  simp [configs, h0, h1, h2]

/-- Witness for C7 at the out-of-range profile identifier 7. -/
theorem resolution_mapping_witness : configs 7 = (160, 72) :=
  resolution_mapping.2.2.2 7 (by decide) (by decide) (by decide)

/-- C8: for every positive timing parameter p the derived frame rate
equals 30 / p; in particular multiplier 1 gives 30 fps, 1/2 gives
60 fps and 2 gives 15 fps. -/
theorem frame_rate_derivation :
    (∀ p : ℚ, 0 < p → derivedFps p = 30 / p) ∧
    derivedFps 1 = 30 ∧ derivedFps (1 / 2) = 60 ∧ derivedFps 2 = 15 := by
  refine ⟨fun p _ => rfl, ?_, ?_, ?_⟩ <;> norm_num [derivedFps]

/-- Witness for C8 at the multiplier 2. -/
theorem frame_rate_derivation_witness :
    (0 : ℚ) < 2 ∧ derivedFps 2 = 30 / 2 :=
  ⟨by norm_num, frame_rate_derivation.1 2 (by norm_num)⟩

/-- C9: the patcher returns success for every file state (missing
file, already-patched file, file patched now) and every backup state,
so the orchestrator's warn-and-continue branch for a patch failure is
never taken on any run. -/
theorem patch_always_succeeds :
    (∀ (file : Option (List Char)) (b : Bool),
      (patch_rgbds file b).ok = true) ∧
    ∀ (a : Args) (w : World), (main_pipeline a w).patchWarned = false := by
  refine ⟨patch_rgbds_ok, ?_⟩
  intro a w
  cases h1 : w.inputExists <;>
    cases h2 : (check_dependencies w.depsEnv).ok <;>
    cases h3 : w.framesOk <;>
    simp [main_pipeline, h1, h2, h3, patch_rgbds_ok] <;>
    split <;> split <;> rfl

/-- C10: the frame-rate computation divides the base rate 30 by the
timing parameter with no zero guard; for every nonzero parameter the
division is defined and yields 30 / p, and at parameter 0 the
computation has no defined result (Python raises ZeroDivisionError,
modelled by `none`). -/
theorem fps_division_unguarded :
    (∀ p : ℚ, p ≠ 0 → fpsDivision p = some (30 / p)) ∧
    fpsDivision 0 = none := by
  refine ⟨?_, rfl⟩
  intro p hp
  simp [fpsDivision, hp]

/-- Witness for C10 at the multiplier 4. -/
theorem fps_division_unguarded_witness :
    fpsDivision 4 = some (30 / 4) :=
  fps_division_unguarded.1 4 (by norm_num)
